import Mathlib

/-!
Verification development for the watcher product-tracking core.

The Rust source is shallowly embedded: Rust `String`/`&str` values are
`List Char`, `f64`/`rust_decimal::Decimal` numerics are `ℚ`,
`serde_json::Value` is the `Json` inductive below, fallible functions return
`Option`/`Except`.  Every definition mirrors the function of the same name in
the repository; definitions whose doc comment starts with "Modelled from the
spec:" embed behaviour the repository stubs out, following the
specification's words.
-/

namespace Watcher

/-! ## String primitives (models of the Rust standard-library operations) -/

/-- Code points with the Unicode White_Space property, as tested by Rust's
`char::is_whitespace` (used by `str::split_whitespace` and by the regex
class `\s`). -/
def rustIsWhitespace (c : Char) : Bool :=
  c.toNat ∈ [0x9, 0xA, 0xB, 0xC, 0xD, 0x20, 0x85, 0xA0, 0x1680,
             0x2028, 0x2029, 0x202F, 0x205F, 0x3000]
  || (0x2000 ≤ c.toNat && c.toNat ≤ 0x200A)

/-- Accumulator-passing core of `splitWhitespace`. -/
def splitWhitespaceAux : List Char → List Char → List (List Char)
  | [], acc => if acc.isEmpty then [] else [acc.reverse]
  | c :: cs, acc =>
    if rustIsWhitespace c then
      if acc.isEmpty then splitWhitespaceAux cs []
      else acc.reverse :: splitWhitespaceAux cs []
    else splitWhitespaceAux cs (c :: acc)

/-- Rust `str::split_whitespace`: splits on Unicode whitespace and never
yields an empty piece. -/
def splitWhitespace (s : List Char) : List (List Char) :=
  splitWhitespaceAux s []

/-- Rust `str::contains(needle)`: contiguous-substring test. -/
def containsSub : List Char → List Char → Bool
  | h, needle =>
    match h with
    | [] => needle.isEmpty
    | _ :: t => needle.isPrefixOf h || containsSub t needle

/-- `str::to_lowercase` restricted to the ASCII range (the URLs compared in
this development are ASCII, where Rust's Unicode lowering agrees). -/
def rustToLower (s : List Char) : List Char :=
  s.map Char.toLower

/-- Splits a string at every occurrence of `sep`, keeping empty pieces
(Rust `str::split(sep)`). -/
def splitOnChar (sep : Char) : List Char → List (List Char)
  | [] => [[]]
  | c :: cs =>
    if c = sep then [] :: splitOnChar sep cs
    else
      match splitOnChar sep cs with
      | [] => [[c]]
      | p :: ps => (c :: p) :: ps

/-- Value of a big-endian ASCII digit string (the core of Rust's integer
`from_str` on plain digit strings). -/
def digitsToNat (s : List Char) : Nat :=
  s.foldl (fun n c => 10 * n + (c.toNat - 48)) 0

/-- Big-endian decimal rendering of a natural number, as Rust's `Display`
for integers prints it. -/
def natRender (n : Nat) : List Char :=
  if n = 0 then ['0'] else ((Nat.digits 10 n).map Nat.digitChar).reverse

/-- `Ord::cmp` on natural numbers. -/
def natCompare (a b : Nat) : Ordering :=
  if a < b then .lt else if b < a then .gt else .eq

/-- Byte-lexicographic string comparison (Rust `str::cmp`; on the ASCII and
general well-formed UTF-8 strings compared here, byte order and code-point
order agree). -/
def strCmp : List Char → List Char → Ordering
  | [], [] => .eq
  | [], _ :: _ => .lt
  | _ :: _, [] => .gt
  | a :: as, b :: bs =>
    match natCompare a.toNat b.toNat with
    | .eq => strCmp as bs
    | o => o

/-- Parse of a plain decimal numeral (optional sign, integer digits, optional
point and fraction digits, at least one digit overall) into a rational.
Models Rust's `str::parse::<f64>` / `Decimal::from_str` on the plain decimal
strings that arise in this code base (no exponent forms can reach them). -/
def parseDecimal (s : List Char) : Option ℚ :=
  let sign : ℚ := if s.head? = some '-' then -1 else 1
  let rest := if s.head? = some '-' ∨ s.head? = some '+' then s.tail else s
  let intDigits := rest.takeWhile Char.isDigit
  let rest2 := rest.dropWhile Char.isDigit
  if rest2.isEmpty then
    if intDigits.isEmpty then none
    else some (sign * (digitsToNat intDigits : ℚ))
  else if rest2.head? = some '.' then
    let frac := rest2.tail
    if frac.all Char.isDigit && !(intDigits.isEmpty && frac.isEmpty) then
      some (sign * ((digitsToNat intDigits : ℚ)
        + (digitsToNat frac : ℚ) / (10 : ℚ) ^ frac.length))
    else none
  else none

/-! ## JSON values

`serde_json::Value` restricted to the constructors this code base produces
(null, booleans, numbers, strings, objects); objects are association lists
with the unique keys serde maintains.  Numbers are rationals: the claims'
numeric reasoning treats the `f64` payload exactly. -/

inductive Json where
  | null : Json
  | bool : Bool → Json
  | num : ℚ → Json
  | str : List Char → Json
  | obj : List (List Char × Json) → Json

mutual

/-- Structural equality on JSON values (serde's `PartialEq`). -/
def Json.beq : Json → Json → Bool
  | Json.null, Json.null => true
  | Json.bool a, Json.bool b => a == b
  | Json.num a, Json.num b => a == b
  | Json.str a, Json.str b => a == b
  | Json.obj a, Json.obj b => Json.beqFields a b
  | _, _ => false

/-- Field-list equality for `Json.beq`. -/
def Json.beqFields : List (List Char × Json) → List (List Char × Json) → Bool
  | [], [] => true
  | (k1, v1) :: t1, (k2, v2) :: t2 =>
    k1 == k2 && Json.beq v1 v2 && Json.beqFields t1 t2
  | _, _ => false

end

/-- Key lookup in an object's field list (serde `Map::get`). -/
def lookupField (k : List Char) : List (List Char × Json) → Option Json
  | [] => none
  | (k1, v) :: t => if k1 = k then some v else lookupField k t

/-- `Value::get(key)`: `none` on non-objects. -/
def Json.get : Json → List Char → Option Json
  | Json.obj fields, k => lookupField k fields
  | _, _ => none

/-- `Value::as_str`. -/
def Json.asStr : Json → Option (List Char)
  | Json.str s => some s
  | _ => none

/-- `Value::as_f64` (integer, unsigned and float JSON numbers all convert). -/
def Json.asNum : Json → Option ℚ
  | Json.num q => some q
  | _ => none

/-- `Map::contains_key`. -/
def hasKey (k : List Char) (fields : List (List Char × Json)) : Bool :=
  (lookupField k fields).isSome

/-! ## Model enums (src/models/mod.rs) -/

inductive TrackerType where
  | Price | Version | Number
deriving DecidableEq

inductive NotifyOn where
  | AnyChange | Decrease | Increase
deriving DecidableEq

inductive ThresholdType where
  | Absolute | Relative
deriving DecidableEq

inductive SelectorType where
  | Css | Xpath | Text
deriving DecidableEq

/-! ## Product (src/models/product.rs)

Timestamps (`chrono::DateTime<Utc>`) are modelled as integers. -/

structure Product where
  id : List Char
  name : List Char
  description : Option (List Char)
  tracker_type : TrackerType
  notify_on : NotifyOn
  threshold_type : Option ThresholdType
  threshold_value : Option ℚ
  check_interval : List Char
  last_checked : Option Int
  next_check : Option Int
  is_active : Bool
  is_paused : Bool
  best_source_id : Option (List Char)
  best_value_json : Option Json
  created_at : Int
  updated_at : Int

/-- `Product::extract_number`.  The `as_object` probe inside the `String`
arm of the Rust match can never fire (a string is not an object), so that
arm reduces to parsing the string itself. -/
def Product.extract_number (_p : Product) (value : Json) : Option ℚ :=
  match value with
  | Json.num n => some n
  | Json.str s => parseDecimal s
  | Json.obj fields =>
    match (lookupField "amount".data fields).bind Json.asStr with
    | some amount => parseDecimal amount
    | none => (lookupField "number".data fields).bind Json.asNum
  | _ => none

/-- `Product::is_decrease`. -/
def Product.is_decrease (p : Product) (old_value new_value : Json) : Bool :=
  match p.tracker_type with
  | .Price | .Number =>
    let old_num := (p.extract_number old_value).getD 0
    let new_num := (p.extract_number new_value).getD 0
    new_num < old_num
  | .Version => false

/-- `Product::is_increase`. -/
def Product.is_increase (p : Product) (old_value new_value : Json) : Bool :=
  match p.tracker_type with
  | .Price | .Number =>
    let old_num := (p.extract_number old_value).getD 0
    let new_num := (p.extract_number new_value).getD 0
    old_num < new_num
  | .Version => !(Json.beq old_value new_value)

/-- `Product::should_notify`: the notification gate.  Note that it reads
`notify_on` only; `threshold_type` / `threshold_value` are not consulted. -/
def Product.should_notify (p : Product) (old_value : Option Json)
    (new_value : Json) : Bool :=
  match old_value with
  | none => false
  | some old_val =>
    if Json.beq old_val new_value then false
    else
      match p.notify_on with
      | .AnyChange => true
      | .Decrease => p.is_decrease old_val new_value
      | .Increase => p.is_increase old_val new_value

/-! ## Source (src/models/source.rs) -/

structure Source where
  id : List Char
  product_id : List Char
  url : List Char
  store_name : Option (List Char)
  title : List Char
  selector : List Char
  selector_type : SelectorType
  original_value_json : Option (List Char)
  current_value_json : Option (List Char)
  original_text : Option (List Char)
  current_text : Option (List Char)
  is_active : Bool
  last_checked : Option Int
  error_count : Int
  last_error : Option (List Char)
  created_at : Int
  updated_at : Int
deriving DecidableEq

/-- `Source::clear_error`. -/
def Source.clear_error (s : Source) : Source :=
  { s with error_count := 0, last_error := none }

/-- `Source::update_value` (`Utc::now()` is passed in as `now`). -/
def Source.update_value (s : Source) (text value_json : List Char)
    (now : Int) : Source :=
  let s1 := { s with current_text := some text,
                     current_value_json := some value_json }
  let s2 :=
    if s1.original_text.isNone then
      { s1 with original_text := some text,
                original_value_json := some value_json }
    else s1
  Source.clear_error { s2 with last_checked := some now }

/-- `Source::record_error`. -/
def Source.record_error (s : Source) (error : List Char) (now : Int) : Source :=
  { s with error_count := s.error_count + 1,
           last_error := some error,
           last_checked := some now,
           updated_at := now }

/-- `Source::should_retry`: a source is eligible for check iff it is active
and its error count is below the quarantine threshold of 5. -/
def Source.should_retry (s : Source) : Bool :=
  s.is_active && s.error_count < 5

/-! ## Product-checker fan-out (src/product_manager.rs, §4.4–4.5) -/

/-- Outcome of one source check, abstracting the fetch + parse pipeline:
either an extracted (text, serialized value) pair or an error message. -/
inductive SourceOutcome where
  | ok (text value_json : List Char)
  | err (msg : List Char)

/-- State written back to a source by one check, per §4.4 steps 2–5:
a successful extraction goes through `Source::update_value`, a failed one
through `Source::record_error`. -/
def applyOutcome (s : Source) (o : SourceOutcome) (now : Int) : Source :=
  match o with
  | .ok text value_json => s.update_value text value_json now
  | .err msg => s.record_error msg now

/-- Modelled from the spec: `ProductManager::check_product` stubs its
database fan-out with a hard-coded mock source list ("In a real
implementation, we would load sources from database"), so the loop over the
product's stored sources is missing from the repository.  This models §4.4:
the checker visits exactly the sources that `Source::should_retry` (the
in-repository eligibility predicate) accepts, records each visited source's
outcome with `Source::update_value` / `Source::record_error`, and leaves
skipped sources untouched.  Returns (sources checked, sources succeeded,
updated source states). -/
def checkProductModel (sources : List Source)
    (outcome : Source → SourceOutcome) (now : Int) :
    List Source × List Source × List Source :=
  let eligible := sources.filter Source.should_retry
  let succeeded := eligible.filter (fun s =>
    match outcome s with
    | .ok _ _ => true
    | .err _ => false)
  let updated := sources.map (fun s =>
    if s.should_retry then applyOutcome s (outcome s) now else s)
  (eligible, succeeded, updated)

/-! ## Scheduler (src/scheduler.rs)

The in-memory scheduler state.  `jobs` and `running_jobs` mirror the two
`HashMap`s of `ProductScheduler` as association lists; `in_flight` models
the set of spawned-but-uncompleted `tokio` check tasks (each tagged with the
handle number that `tokio::spawn` produced), which the Rust struct holds
only implicitly through the runtime; `next_handle` is a fresh-handle
counter. -/

inductive JobStatus where
  | Active | Paused | Disabled | Error
deriving DecidableEq

structure JobInfo where
  product_id : List Char
  cron_expression : List Char
  status : JobStatus
  created_at : Int
  last_run : Option Int
  next_run : Option Int
  run_count : Nat
  success_count : Nat
  error_count : Nat
  last_error : Option (List Char)
deriving DecidableEq

/-- `HashMap::insert`: replaces the binding if the key is present. -/
def insertAssoc {α : Type} (k : List Char) (v : α) :
    List (List Char × α) → List (List Char × α)
  | [] => [(k, v)]
  | (k1, v1) :: t =>
    if k1 = k then (k, v) :: t else (k1, v1) :: insertAssoc k v t

/-- `HashMap::remove` (dropping the returned value). -/
def removeAssoc {α : Type} (k : List Char) :
    List (List Char × α) → List (List Char × α)
  | [] => []
  | (k1, v1) :: t =>
    if k1 = k then t else (k1, v1) :: removeAssoc k t

/-- `HashMap::get`. -/
def lookupAssoc {α : Type} (k : List Char) :
    List (List Char × α) → Option α
  | [] => none
  | (k1, v1) :: t => if k1 = k then some v1 else lookupAssoc k t

structure SchedState where
  jobs : List (List Char × JobInfo)
  running_jobs : List (List Char × Nat)
  in_flight : List (List Char × Nat)
  next_handle : Nat
deriving DecidableEq

/-- `ProductScheduler::pause_job`: sets the job's status to `Paused` (and
does nothing else). -/
def SchedState.pause_job (st : SchedState) (product_id : List Char) :
    Except (List Char) SchedState :=
  match lookupAssoc product_id st.jobs with
  | some job_info =>
    let ji := { job_info with status := JobStatus.Paused }
    .ok { st with jobs := insertAssoc product_id ji st.jobs }
  | none => .error ("Job not found for product: ".data ++ product_id)

/-- `ProductScheduler::resume_job`. -/
def SchedState.resume_job (st : SchedState) (product_id : List Char) :
    Except (List Char) SchedState :=
  match lookupAssoc product_id st.jobs with
  | some job_info =>
    let ji := { job_info with status := JobStatus.Active }
    .ok { st with jobs := insertAssoc product_id ji st.jobs }
  | none => .error ("Job not found for product: ".data ++ product_id)

/-- One firing of the cron closure installed by
`ProductScheduler::schedule_product` (scheduler.rs lines 123–157): it
unconditionally spawns `execute_product_check` as a fresh task and stores
the handle in `running_jobs`, replacing (not aborting) any handle already
there.  It consults neither the job's status nor whether a previous task is
still in flight. -/
def SchedState.cron_fire (st : SchedState) (product_id : List Char) :
    SchedState :=
  let handle := st.next_handle
  { st with in_flight := (product_id, handle) :: st.in_flight,
            running_jobs := insertAssoc product_id handle st.running_jobs,
            next_handle := handle + 1 }

/-- `ProductScheduler::update_job_stats_internal`. -/
def update_job_stats_internal (jobs : List (List Char × JobInfo))
    (product_id : List Char) (success : Bool) (error : Option (List Char))
    (now : Int) : List (List Char × JobInfo) :=
  match lookupAssoc product_id jobs with
  | none => jobs
  | some job_info =>
    let ji1 := { job_info with last_run := some now,
                               run_count := job_info.run_count + 1 }
    let ji2 :=
      if success then
        { ji1 with success_count := ji1.success_count + 1,
                   last_error := none,
                   status := if ji1.status = JobStatus.Error then
                               JobStatus.Active
                             else ji1.status }
      else
        { ji1 with error_count := ji1.error_count + 1,
                   last_error := error,
                   status := JobStatus.Error }
    insertAssoc product_id ji2 jobs

/-- Completion of a spawned check task (the tail of
`execute_product_check`): the task leaves flight and the job statistics are
updated with the run's outcome. -/
def SchedState.task_complete (st : SchedState) (product_id : List Char)
    (handle : Nat) (success : Bool) (error : Option (List Char))
    (now : Int) : SchedState :=
  let remaining :=
    st.in_flight.filter (fun e => !(e.1 == product_id && e.2 == handle))
  { st with in_flight := remaining,
            jobs := update_job_stats_internal st.jobs product_id success error now }

/-- The delayed cleanup task spawned by the cron closure: removes the stored
handle for the product. -/
def SchedState.cleanup_handle (st : SchedState) (product_id : List Char) :
    SchedState :=
  { st with running_jobs := removeAssoc product_id st.running_jobs }

/-- `ProductScheduler::run_job_now`: refuses when a handle for the product
is registered; otherwise runs the check synchronously (its outcome is the
`success`/`error` parameters) and updates the job statistics. -/
def SchedState.run_job_now (st : SchedState) (product_id : List Char)
    (success : Bool) (error : Option (List Char)) (now : Int) :
    Except (List Char) SchedState :=
  if (lookupAssoc product_id st.running_jobs).isSome then
    .error ("Job is already running for product: ".data ++ product_id)
  else
    let jobs1 := update_job_stats_internal st.jobs product_id success error now
    .ok { st with jobs := jobs1 }

/-- `ProductScheduler::validate_cron_expression` (identical to
`ProductManager::is_valid_cron` up to the comment text): five
whitespace-separated parts, each nonempty and built only from ASCII digits,
`*`, `-`, `,`, `/`. -/
def validate_cron_expression (expression : List Char) : Bool :=
  let parts := splitWhitespace expression
  if parts.length ≠ 5 then false
  else parts.all (fun part =>
    !part.isEmpty &&
    part.all (fun c => c.isDigit || c = '*' || c = '-' || c = ',' || c = '/'))

/-! ## Price comparison (src/models/price_comparison.rs)

The Rust struct stores values as serialized JSON strings and re-parses them
in the getters; since serde's print/parse round-trip is the identity on
values, the `*_json` fields here hold the JSON values themselves.  The
random `id` and the `timestamp` are omitted. -/

structure SourceComparison where
  source_id : List Char
  store_name : List Char
  value : Json
  formatted_value : List Char
  url : List Char

structure NewPriceComparison where
  product_id : List Char
  sources : List SourceComparison

structure PriceComparison where
  product_id : List Char
  sources_json : List SourceComparison
  best_source_id : List Char
  best_value_json : Json
  worst_value_json : Option Json
  avg_value_json : Option Json

/-- `PriceComparison::extract_amount`. -/
def extract_amount (value : Json) : Option ℚ :=
  match value with
  | Json.num n => some n
  | Json.obj fields =>
    match (lookupField "amount".data fields).bind Json.asStr with
    | some amount_str => parseDecimal amount_str
    | none =>
      match (lookupField "amount".data fields).bind Json.asNum with
      | some amount_num => some amount_num
      | none => (lookupField "number".data fields).bind Json.asNum
  | Json.str s => parseDecimal s
  | _ => none

/-- `f64::partial_cmp` on two present amounts (`NaN` cannot arise here). -/
def ratCompare (a b : ℚ) : Ordering :=
  if a < b then .lt else if b < a then .gt else .eq

/-- Comparison of optional amounts where a missing amount plays the role of
`f64::MAX` in the Rust code (never "best", always "worst"). -/
def cmpOptAmount : Option ℚ → Option ℚ → Ordering
  | some a, some b => ratCompare a b
  | some _, none => .lt
  | none, some _ => .gt
  | none, none => .eq

/-- `PriceComparison::compare_values`: orders two JSON values by extracted
amount, unparseable values acting as `f64::MAX`. -/
def compare_values (a b : Json) : Ordering :=
  cmpOptAmount (extract_amount a) (extract_amount b)

/-- Rust `Iterator::min_by`: folds with `std::cmp::min_by`, so among equal
minima the first element wins. -/
def rustMinBy {α : Type} (cmp : α → α → Ordering) : List α → Option α
  | [] => none
  | x :: xs => some (xs.foldl (fun a y => if cmp a y = .gt then y else a) x)

/-- Rust `Iterator::max_by`: folds with `std::cmp::max_by`, so among equal
maxima the last element wins. -/
def rustMaxBy {α : Type} (cmp : α → α → Ordering) : List α → Option α
  | [] => none
  | x :: xs => some (xs.foldl (fun a y => if cmp a y = .gt then a else y) x)

/-- Rounding of `q` to an integer number of hundredths, as
`format!("\x7b:.2\x7d", avg)` rounds an `f64` (a tie cannot occur for a
binary double, so half-up here is indistinguishable from the float
behaviour). -/
def roundHundredths (q : ℚ) : Int :=
  ⌊q * 100 + 1 / 2⌋

/-- Two-decimal rendering of a rational, the model of
`format!("\x7b:.2\x7d", avg)`. -/
def format2dp (q : ℚ) : List Char :=
  (if roundHundredths q < 0 then ['-'] else []) ++
    natRender ((roundHundredths q).natAbs / 100) ++ '.' ::
    [Nat.digitChar ((roundHundredths q).natAbs % 100 / 10),
     Nat.digitChar ((roundHundredths q).natAbs % 100 % 10)]

/-- `PriceComparison::calculate_average`: arithmetic mean of the parseable
amounts, rendered in the structural shape of the first source's value (the
final `Number::from_f64` fallback cannot fail on a finite mean, so it is the
plain number). -/
def calculate_average (sources : List SourceComparison) : Option Json :=
  let amounts := sources.filterMap (fun s => extract_amount s.value)
  if amounts.isEmpty then none
  else
    let avg := amounts.sum / (amounts.length : ℚ)
    match sources.head? with
    | some first_source =>
      match first_source.value with
      | Json.obj fields =>
        if hasKey "amount".data fields then
          let currency :=
            ((lookupField "currency".data fields).bind Json.asStr).getD "USD".data
          some (Json.obj [("amount".data, Json.str (format2dp avg)),
                          ("currency".data, Json.str currency)])
        else if hasKey "number".data fields then
          some (Json.obj [("number".data, Json.num avg)])
        else some (Json.num avg)
      | _ => some (Json.num avg)
    | none => some (Json.num avg)

/-- `PriceComparison::new`. -/
def PriceComparison.new (new_comparison : NewPriceComparison) :
    Except (List Char) PriceComparison :=
  if new_comparison.sources.isEmpty then
    .error "Cannot create price comparison with no sources".data
  else
    match rustMinBy (fun a b => compare_values a.value b.value)
        new_comparison.sources with
    | none => .error "Failed to find best price".data
    | some best_source =>
      let worst_source :=
        if new_comparison.sources.length > 1 then
          rustMaxBy (fun a b => compare_values a.value b.value)
            new_comparison.sources
        else none
      let avg_value :=
        if new_comparison.sources.length > 1 then
          calculate_average new_comparison.sources
        else none
      .ok { product_id := new_comparison.product_id,
            sources_json := new_comparison.sources,
            best_source_id := best_source.source_id,
            best_value_json := best_source.value,
            worst_value_json := worst_source.map (fun s => s.value),
            avg_value_json := avg_value }

/-- `PriceComparison::get_savings`. -/
def PriceComparison.get_savings (c : PriceComparison) : Option ℚ :=
  match c.worst_value_json with
  | some worst =>
    match extract_amount worst, extract_amount c.best_value_json with
    | some worst_amount, some best_amount => some (worst_amount - best_amount)
    | _, _ => none
  | none => none

/-- `PriceComparison::get_savings_percentage`. -/
def PriceComparison.get_savings_percentage (c : PriceComparison) : Option ℚ :=
  match c.get_savings with
  | some savings =>
    match c.worst_value_json with
    | some worst =>
      match extract_amount worst with
      | some worst_amount =>
        if worst_amount > 0 then some (savings / worst_amount * 100) else none
      | none => none
    | none => none
  | none => none

/-! ## Tracker plugin result types (src/plugins/traits/tracker.rs) -/

inductive ChangeType where
  | Increased | Decreased | Unchanged
deriving DecidableEq

structure ParseResult where
  success : Bool
  value : Json
  normalized : List Char
  confidence : ℚ
  metadata : List (List Char × List Char)

structure ComparisonResult where
  changed : Bool
  change_type : ChangeType
  difference : Json
  percent_change : Option ℚ

/-! ## Version tracker (src/plugins/trackers/version.rs) -/

structure Version where
  major : Nat
  minor : Nat
  patch : Nat
  pre_release : Option (List Char)
deriving DecidableEq

/-- `Version::parse`: the anchored regex
`^(\d+)\.(\d+)\.(\d+)(?:-(.+))?$`.  Each numeric capture goes through
`u32::from_str`, which fails above `u32::MAX`; `(.+)` requires a nonempty
pre-release tag free of newlines (`.` does not match `\n`). -/
def Version.parse (s : List Char) : Option Version :=
  let u32max : Nat := 4294967295
  let d1 := s.takeWhile Char.isDigit
  match d1, s.dropWhile Char.isDigit with
  | _ :: _, '.' :: r1 =>
    let d2 := r1.takeWhile Char.isDigit
    match d2, r1.dropWhile Char.isDigit with
    | _ :: _, '.' :: r2 =>
      let d3 := r2.takeWhile Char.isDigit
      match d3, r2.dropWhile Char.isDigit with
      | _ :: _, rest =>
        if digitsToNat d1 ≤ u32max && digitsToNat d2 ≤ u32max &&
            digitsToNat d3 ≤ u32max then
          match rest with
          | [] => some ⟨digitsToNat d1, digitsToNat d2, digitsToNat d3, none⟩
          | '-' :: pre =>
            if !pre.isEmpty && pre.all (fun c => c ≠ '\n') then
              some ⟨digitsToNat d1, digitsToNat d2, digitsToNat d3, some pre⟩
            else none
          | _ => none
        else none
      | _, _ => none
    | _, _ => none
  | _, _ => none

/-- `Display for Version`. -/
def Version.render (v : Version) : List Char :=
  let base := natRender v.major ++ '.' :: natRender v.minor ++
    '.' :: natRender v.patch
  match v.pre_release with
  | some pre => base ++ '-' :: pre
  | none => base

/-- `Ord for Version` (version.rs lines 57–78): lexicographic on
(major, minor, patch); a release outranks any pre-release; two pre-release
tags are compared as plain strings (`String::cmp`). -/
def versionCmp (v1 v2 : Version) : Ordering :=
  match natCompare v1.major v2.major with
  | .eq =>
    match natCompare v1.minor v2.minor with
    | .eq =>
      match natCompare v1.patch v2.patch with
      | .eq =>
        match v1.pre_release, v2.pre_release with
        | none, none => .eq
        | none, some _ => .gt
        | some _, none => .lt
        | some a, some b => strCmp a b
      | o => o
    | o => o
  | o => o

/-- `VersionTracker::compare` (the tracker's regex plays no role here: both
arguments carry their version string in the `version` field). -/
def VersionTracker.compare (old_value new_value : Json) : ComparisonResult :=
  let old_version_str := ((old_value.get "version".data).bind Json.asStr).getD []
  let new_version_str := ((new_value.get "version".data).bind Json.asStr).getD []
  match Version.parse old_version_str, Version.parse new_version_str with
  | some old_version, some new_version =>
    let change_type :=
      match versionCmp new_version old_version with
      | .gt => ChangeType.Increased
      | .lt => ChangeType.Decreased
      | .eq => ChangeType.Unchanged
    { changed := change_type ≠ ChangeType.Unchanged,
      change_type := change_type,
      difference := Json.obj [("from".data, Json.str old_version.render),
                              ("to".data, Json.str new_version.render)],
      percent_change := none }
  | _, _ =>
    { changed := old_version_str ≠ new_version_str,
      change_type :=
        if old_version_str ≠ new_version_str then ChangeType.Increased
        else ChangeType.Unchanged,
      difference := Json.obj [("from".data, Json.str old_version_str),
                              ("to".data, Json.str new_version_str)],
      percent_change := none }

/-! ### SemVer-2 precedence, from the claim's words

These definitions are not translated from the repository; they state the
genuine SemVer-2 precedence that claim C5 references, for comparison with
the repository's `Ord for Version`. -/

/-- SemVer-2 comparison of two pre-release identifiers: purely numeric
identifiers compare numerically, a numeric identifier precedes an
alphanumeric one, and alphanumeric identifiers compare in ASCII order. -/
def semverIdentCmp (a b : List Char) : Ordering :=
  if a.all Char.isDigit && b.all Char.isDigit then
    natCompare (digitsToNat a) (digitsToNat b)
  else if a.all Char.isDigit then .lt
  else if b.all Char.isDigit then .gt
  else strCmp a b

/-- SemVer-2 comparison of dot-separated identifier lists: identifier by
identifier, a shorter list preceding any extension of itself. -/
def semverIdentsCmp : List (List Char) → List (List Char) → Ordering
  | [], [] => .eq
  | [], _ :: _ => .lt
  | _ :: _, [] => .gt
  | a :: as, b :: bs =>
    match semverIdentCmp a b with
    | .eq => semverIdentsCmp as bs
    | o => o

/-- SemVer-2 precedence on parsed versions: lexicographic on
(major, minor, patch), a release above any pre-release, then pre-release
identifier comparison. -/
def semver2Cmp (v1 v2 : Version) : Ordering :=
  match natCompare v1.major v2.major with
  | .eq =>
    match natCompare v1.minor v2.minor with
    | .eq =>
      match natCompare v1.patch v2.patch with
      | .eq =>
        match v1.pre_release, v2.pre_release with
        | none, none => .eq
        | none, some _ => .gt
        | some _, none => .lt
        | some a, some b => semverIdentsCmp (splitOnChar '.' a) (splitOnChar '.' b)
      | o => o
    | o => o
  | o => o

/-! ## Price tracker (src/plugins/trackers/price.rs)

The tracker is represented by its `default_currency` (its other fields are
the fixed regex and the two currency maps written out below). -/

/-- The single-character class `[\$£€¥₹]` of the price regex. -/
def currencyChar (c : Char) : Bool :=
  c = '$' || c = '£' || c = '€' || c = '¥' || c = '₹'

/-- Greedy `(,\d\d\d)*`: consumes comma-plus-three-digit groups, returning
(consumed, rest). -/
def matchCommaGroups : List Char → List Char × List Char
  | ',' :: d1 :: d2 :: d3 :: rest =>
    if d1.isDigit && d2.isDigit && d3.isDigit then
      let p := matchCommaGroups rest
      (',' :: d1 :: d2 :: d3 :: p.1, p.2)
    else ([], ',' :: d1 :: d2 :: d3 :: rest)
  | other => ([], other)

/-- Optional `(\.\d\d)?`: a point and exactly two digits, if present. -/
def matchFraction : List Char → List Char × List Char
  | '.' :: a :: b :: rest =>
    if a.isDigit && b.isDigit then ('.' :: a :: [b], rest)
    else ([], '.' :: a :: b :: rest)
  | other => ([], other)

/-- The number alternation of the price regex at one position, returning the
matched capture.  The first branch `\d\x7b1,3\x7d(,\d\x7b3\x7d)*(\.\d\x7b2\x7d)?`
succeeds (greedily, without backtracking: everything after the leading
digits is optional) whenever a digit is present, which is also the only case
where the second branch `\d+(\.\d\x7b2\x7d)?` could match — so the second
branch is never taken. -/
def matchNumberAt (s : List Char) : Option (List Char) :=
  let run := s.takeWhile Char.isDigit
  if run.isEmpty then none
  else
    let d := run.take 3
    let afterDigits := s.drop d.length
    let groups := matchCommaGroups afterDigits
    let frac := matchFraction groups.2
    some (d ++ groups.1 ++ frac.1)

/-- The full price regex `[\$£€¥₹]?\s*(<number>)` at one position.  When the
leading currency character is present but no number follows, the empty
alternative of `?` also fails (a currency character is neither whitespace
nor a digit), so consuming it greedily is exact. -/
def matchPriceAt (s : List Char) : Option (List Char) :=
  let afterCurrency :=
    match s with
    | c :: rest => if currencyChar c then rest else s
    | [] => s
  matchNumberAt (afterCurrency.dropWhile rustIsWhitespace)

/-- `Regex::captures` for the price regex: the capture of the leftmost
match. -/
def extractPriceCapture : List Char → Option (List Char)
  | [] => none
  | c :: rest =>
    match matchPriceAt (c :: rest) with
    | some cap => some cap
    | none => extractPriceCapture rest

/-- `Decimal::from_str` followed by `to_string` on a comma-stripped capture
of the price regex: such inputs are digit strings with an optional fraction,
and the round-trip only strips leading integer zeros (the scale, hence the
fraction digits, is preserved). -/
def rustDecimalToString (s : List Char) : Option (List Char) :=
  let intDigits := s.takeWhile Char.isDigit
  let intStripped :=
    let t := intDigits.dropWhile (fun c => c = '0')
    if t.isEmpty then ['0'] else t
  match intDigits, s.dropWhile Char.isDigit with
  | _ :: _, [] => some intStripped
  | _ :: _, '.' :: frac =>
    if !frac.isEmpty && frac.all Char.isDigit then
      some (intStripped ++ '.' :: frac)
    else none
  | _, _ => none

/-- `PriceTracker::extract_currency`: the `currency_symbols` map built by
`with_default_currency` ("$" maps to USD when the default currency is USD
and to the default currency otherwise), iterated in length-descending order
("USD$", "US$" before the one-character symbols), returning the code of the
first symbol contained in the text.  The loop is unrolled here; the
one-character symbols are mutually tied in length and their relative order
(unspecified `HashMap` iteration order in Rust) only matters for a text
containing two distinct one-character symbols, which does not arise in this
development. -/
def extract_currency (default_currency text : List Char) :
    Option (List Char) :=
  if containsSub text "USD$".data then some "USD".data
  else if containsSub text "US$".data then some "USD".data
  else if containsSub text "$".data then
    some (if default_currency = "USD".data then "USD".data
          else default_currency)
  else if containsSub text "£".data then some "GBP".data
  else if containsSub text "€".data then some "EUR".data
  else if containsSub text "¥".data then some "JPY".data
  else if containsSub text "₹".data then some "INR".data
  else none

/-- The `locale_currency_map` of `PriceTracker::with_default_currency`
(locale tags and bare country codes). -/
def locale_currency_map (key : List Char) : Option (List Char) :=
  lookupCur key
    [("en-AU", "AUD"), ("en-US", "USD"), ("en-GB", "GBP"), ("en-CA", "CAD"),
     ("fr-FR", "EUR"), ("de-DE", "EUR"), ("es-ES", "EUR"), ("it-IT", "EUR"),
     ("ja-JP", "JPY"), ("ko-KR", "KRW"), ("zh-CN", "CNY"), ("hi-IN", "INR"),
     ("AU", "AUD"), ("US", "USD"), ("GB", "GBP"), ("UK", "GBP"),
     ("CA", "CAD"), ("FR", "EUR"), ("DE", "EUR"), ("ES", "EUR"),
     ("IT", "EUR"), ("JP", "JPY"), ("KR", "KRW"), ("CN", "CNY"),
     ("IN", "INR")]
where
  lookupCur (key : List Char) : List (String × String) → Option (List Char)
    | [] => none
    | (k, v) :: t => if k.data = key then some v.data else lookupCur key t

/-- `PriceTracker::extract_currency_from_url`: each pattern is an
alternation of literal path segments matched anywhere in the lowercased
URL; the patterns are tried in order. -/
def extract_currency_from_url (url : List Char) : Option (List Char) :=
  let url_lower := rustToLower url
  let locale_patterns : List (List String × String) :=
    [(["/en-au/", "/au/", "/australia/"], "AUD"),
     (["/en-us/", "/us/", "/usa/"], "USD"),
     (["/en-gb/", "/gb/", "/uk/"], "GBP"),
     (["/en-ca/", "/ca/", "/canada/"], "CAD"),
     (["/de/", "/germany/"], "EUR"),
     (["/fr/", "/france/"], "EUR"),
     (["/es/", "/spain/"], "EUR"),
     (["/it/", "/italy/"], "EUR"),
     (["/jp/", "/japan/"], "JPY"),
     (["/kr/", "/korea/"], "KRW"),
     (["/cn/", "/china/"], "CNY"),
     (["/in/", "/india/"], "INR")]
  locale_patterns.findSome? (fun p =>
    if p.1.any (fun alt => containsSub url_lower alt.data) then some p.2.data
    else none)

/-- `PriceTracker::infer_currency_from_domain`: TLD patterns against the
original (non-lowercased) URL; an alternative is either a substring test or,
when the regex anchors it with `$`, a suffix test. -/
def infer_currency_from_domain (url : List Char) : Option (List Char) :=
  let tld_patterns : List (List (String × Bool) × String) :=
    [([(".com.au", false), (".au", true)], "AUD"),
     ([(".com", false), (".us", true)], "USD"),
     ([(".co.uk", false), (".uk", true)], "GBP"),
     ([(".ca", true)], "CAD"),
     ([(".de", true)], "EUR"),
     ([(".fr", true)], "EUR"),
     ([(".es", true)], "EUR"),
     ([(".it", true)], "EUR"),
     ([(".jp", true)], "JPY"),
     ([(".kr", true)], "KRW"),
     ([(".cn", true)], "CNY"),
     ([(".in", true)], "INR")]
  tld_patterns.findSome? (fun p =>
    if p.1.any (fun alt =>
        if alt.2 then alt.1.data.isSuffixOf url
        else containsSub url alt.1.data) then
      some p.2.data
    else none)

structure WebsiteContext where
  url : List Char
  lang : Option (List Char)
  locale : Option (List Char)
  country_code : Option (List Char)

/-- `PriceTracker::infer_currency_from_website`: URL path locale, then HTML
`lang`, then TLD. -/
def infer_currency_from_website (context : Option WebsiteContext) :
    Option (List Char) :=
  match context with
  | none => none
  | some c =>
    match extract_currency_from_url c.url with
    | some currency => some currency
    | none =>
      match c.lang.bind locale_currency_map with
      | some currency => some currency
      | none => infer_currency_from_domain c.url

/-- `PriceTracker::extract_price_with_context`. -/
def extract_price_with_context (default_currency text : List Char)
    (website_context : Option WebsiteContext) :
    Option (List Char × List Char) :=
  match extractPriceCapture text with
  | none => none
  | some capture =>
    let price_str := capture.filter (fun c => c ≠ ',')
    match rustDecimalToString price_str with
    | none => none
    | some price =>
      let currency :=
        (match extract_currency default_currency text with
         | some cur => some cur
         | none => infer_currency_from_website website_context).getD
          default_currency
      some (price, currency)

/-- `PriceTracker::extract_price`: no website context. -/
def extract_price (default_currency text : List Char) :
    Option (List Char × List Char) :=
  extract_price_with_context default_currency text none

/-- `PriceTracker::parse` for a tracker with the given default currency. -/
def PriceTracker.parse (default_currency text : List Char) : ParseResult :=
  match extract_price default_currency text with
  | some pc =>
    { success := true,
      value := Json.obj [("amount".data, Json.str pc.1),
                         ("currency".data, Json.str pc.2)],
      normalized := pc.1 ++ ' ' :: pc.2,
      confidence := 9 / 10,
      metadata := [("currency".data, pc.2)] }
  | none =>
    { success := false, value := Json.null, normalized := [],
      confidence := 0, metadata := [] }

/-- `ProductManager::extract_value` for a Price product, through
`PluginManager::parse_value_with_tracker("price", text)`: the registered
tracker is `PriceTracker::new()` (default currency "AUD", installed by
`initialize_default_plugins`), `parse` receives the text alone — no website
context is built anywhere on this path — and the parsed value is returned on
success (the error payloads are collapsed to `none`). -/
def extract_value_price (text : List Char) : Option Json :=
  let parse_result := PriceTracker.parse "AUD".data text
  if parse_result.success then some parse_result.value else none

/-! ## The 5-field cron grammar, from the claim's words

These three definitions are not translated from the repository; they state
the grammar that claim C7 says `validate_cron` accepts exactly: fields built
from `*`, ranges a-b, lists a,b,c and steps */n. -/

/-- One item of a cron list field: a number or a range a-b. -/
def cronItemOk (item : List Char) : Bool :=
  match splitOnChar '-' item with
  | [a] => !a.isEmpty && a.all Char.isDigit
  | [a, b] => !a.isEmpty && a.all Char.isDigit &&
              !b.isEmpty && b.all Char.isDigit
  | _ => false

/-- A well-formed cron field: `*`, a step `*/n`, or a nonempty
comma-separated list of items. -/
def cronFieldOk (f : List Char) : Bool :=
  match f with
  | ['*'] => true
  | '*' :: '/' :: ds => !ds.isEmpty && ds.all Char.isDigit
  | _ => (splitOnChar ',' f).all cronItemOk

/-- A well-formed 5-field cron expression. -/
def wellFormedCron (s : List Char) : Bool :=
  let parts := splitWhitespace s
  parts.length == 5 && parts.all cronFieldOk

/-! ## Concrete inputs used by the theorems -/

/-- A Price product with notify policy AnyChange and a configured absolute
threshold of 2.00 (spec scenario 3). -/
def thresholdProduct : Product :=
  { id := "p1".data, name := "Widget".data, description := none,
    tracker_type := TrackerType.Price, notify_on := NotifyOn.AnyChange,
    threshold_type := some ThresholdType.Absolute, threshold_value := some 2,
    check_interval := "0 0 * * *".data, last_checked := none,
    next_check := none, is_active := true, is_paused := false,
    best_source_id := none, best_value_json := none,
    created_at := 0, updated_at := 0 }

def price2000 : Json :=
  Json.obj [("amount".data, Json.str "20.00".data),
            ("currency".data, Json.str "AUD".data)]

def price1950 : Json :=
  Json.obj [("amount".data, Json.str "19.50".data),
            ("currency".data, Json.str "AUD".data)]

/-- C1.  The notification gate does not AND-compose the configured
threshold: for the product above (absolute threshold 2.00) and a price move
from 20.00 to 19.50, `Product::should_notify` returns `true` although the
absolute change 0.50 is below the threshold — `should_notify` never reads
`threshold_type` or `threshold_value`, so the spec's threshold gate
(P4, scenario 3: `changes_detected=1, notifications_sent=0`) is not
implemented. -/
theorem C1_threshold_not_composed :
    thresholdProduct.should_notify (some price2000) price1950 = true ∧
    thresholdProduct.threshold_type = some ThresholdType.Absolute ∧
    thresholdProduct.threshold_value = some 2 ∧
    thresholdProduct.extract_number price2000 = some 20 ∧
    thresholdProduct.extract_number price1950 = some (39 / 2) ∧
    |(39 / 2 : ℚ) - 20| < 2 := by
  refine ⟨rfl, rfl, rfl, ?_, ?_, by rw [abs_sub_lt_iff]; constructor <;> norm_num⟩
  · show some ((1 : ℚ) * (((20 : ℕ) : ℚ) + ((0 : ℕ) : ℚ) / 10 ^ (2 : ℕ))) = some 20
    norm_num
  · show some ((1 : ℚ) * (((19 : ℕ) : ℚ) + ((50 : ℕ) : ℚ) / 10 ^ (2 : ℕ))) =
      some (39 / 2)
    norm_num

/-- A scheduler job entry for product "prod1" that has been paused. -/
def pausedJob : JobInfo :=
  { product_id := "prod1".data, cron_expression := "*/5 * * * *".data,
    status := JobStatus.Paused, created_at := 0, last_run := none,
    next_run := none, run_count := 0, success_count := 0, error_count := 0,
    last_error := none }

def pausedState : SchedState :=
  { jobs := [("prod1".data, pausedJob)], running_jobs := [],
    in_flight := [], next_handle := 0 }

/-- C3.  A cron fire for a paused job is not suppressed: the cron closure
consults neither the `Paused` status nor anything else before spawning, so
firing on `pausedState` spawns a check task, and when that task completes
`update_job_stats_internal` increments `run_count` to 1 while the status is
still `Paused`.  The pause/resume operations only toggle the status field. -/
theorem C3_paused_job_still_fires :
    (pausedState.cron_fire "prod1".data).in_flight = [("prod1".data, 0)] ∧
    (lookupAssoc "prod1".data
      ((pausedState.cron_fire "prod1".data).task_complete
        "prod1".data 0 true none 7).jobs).map JobInfo.run_count = some 1 ∧
    (lookupAssoc "prod1".data
      ((pausedState.cron_fire "prod1".data).task_complete
        "prod1".data 0 true none 7).jobs).map JobInfo.status =
      some JobStatus.Paused := by
  decide

/-- An active job for "prod1" with no task in flight. -/
def activeState : SchedState :=
  { jobs := [("prod1".data,
      { pausedJob with status := JobStatus.Active })],
    running_jobs := [], in_flight := [], next_handle := 0 }

/-- C9 counterexample.  Two consecutive cron fires for the same product,
the first task still unfinished, leave two check tasks in flight
simultaneously: the cron closure never drops a fire, it spawns
unconditionally and merely replaces the stored handle. -/
theorem C9_counterexample :
    (((activeState.cron_fire "prod1".data).cron_fire "prod1".data).in_flight.filter
      (fun e => e.1 == "prod1".data)).length = 2 := by
  decide

/-- C9 amended.  `run_job_now` does refuse while a handle for the product is
registered; but a cron fire is never dropped: it always pushes a fresh task
into flight (restated per-fire: the in-flight list grows by exactly the new
task), so at-most-one-per-product does not hold on the cron path. -/
theorem C9_amended_at_most_one (st : SchedState) (product_id : List Char)
    (success : Bool) (error : Option (List Char)) (now : Int) :
    ((lookupAssoc product_id st.running_jobs).isSome = true →
      st.run_job_now product_id success error now =
        .error ("Job is already running for product: ".data ++ product_id)) ∧
    (st.cron_fire product_id).in_flight = (product_id, st.next_handle) :: st.in_flight ∧
    (st.cron_fire product_id).in_flight.length = st.in_flight.length + 1 := by
  refine ⟨fun h => ?_, rfl, rfl⟩
  simp [SchedState.run_job_now, h]

/-- A state in which a handle for "prod1" is registered as running. -/
def runningState : SchedState :=
  { jobs := [("prod1".data, { pausedJob with status := JobStatus.Active })],
    running_jobs := [("prod1".data, 0)], in_flight := [("prod1".data, 0)],
    next_handle := 1 }

theorem C9_amended_at_most_one_witness :
    runningState.run_job_now "prod1".data true none 3 =
      .error ("Job is already running for product: ".data ++ "prod1".data) :=
  (C9_amended_at_most_one runningState "prod1".data true none 3).1 (by decide)

/-- C8.  `Source::update_value`: the first successful update sets both the
original and the current pair; once `original_text` is set, subsequent
updates leave both original fields unchanged; every successful update sets
the current pair and resets `error_count` to 0 and `last_error` to none. -/
theorem C8_original_immutable (s : Source) (text value_json : List Char)
    (now : Int) :
    (s.original_text = none →
      (s.update_value text value_json now).original_text = some text ∧
      (s.update_value text value_json now).original_value_json = some value_json) ∧
    (∀ ot, s.original_text = some ot →
      (s.update_value text value_json now).original_text = some ot ∧
      (s.update_value text value_json now).original_value_json =
        s.original_value_json) ∧
    (s.update_value text value_json now).current_text = some text ∧
    (s.update_value text value_json now).current_value_json = some value_json ∧
    (s.update_value text value_json now).error_count = 0 ∧
    (s.update_value text value_json now).last_error = none := by
  cases hot : s.original_text with
  | none => simp [Source.update_value, Source.clear_error, hot]
  | some ot => simp [Source.update_value, Source.clear_error, hot]

/-- A source whose original pair is already set. -/
def checkedSource : Source :=
  { id := "s1".data, product_id := "p1".data,
    url := "https://example.com/item".data, store_name := none,
    title := "Item".data, selector := ".price".data,
    selector_type := SelectorType.Css,
    original_value_json := some "ov".data,
    current_value_json := some "cv".data,
    original_text := some "$19.99".data,
    current_text := some "$18.99".data,
    is_active := true, last_checked := some 1, error_count := 2,
    last_error := some "timeout".data, created_at := 0, updated_at := 0 }

theorem C8_original_immutable_witness :
    (checkedSource.update_value "$15.99".data "v2".data 5).original_text =
      some "$19.99".data ∧
    (checkedSource.update_value "$15.99".data "v2".data 5).original_value_json =
      some "ov".data :=
  (C8_original_immutable checkedSource "$15.99".data "v2".data 5).2.1
    "$19.99".data rfl

/-- C2.  Quarantine: a source that is inactive or has `error_count ≥ 5`
fails `Source::should_retry`, so the checker's fan-out neither checks it
(it is not among the checked or succeeded sources) nor touches its stored
state (the updated source list carries it through unchanged at its
position). -/
theorem C2_quarantined_source_skipped (sources : List Source)
    (outcome : Source → SourceOutcome) (now : Int) (s : Source)
    (hq : 5 ≤ s.error_count ∨ s.is_active = false) :
    s ∉ (checkProductModel sources outcome now).1 ∧
    s ∉ (checkProductModel sources outcome now).2.1 ∧
    ∀ i, (h : i < sources.length) → sources.get ⟨i, h⟩ = s →
      (checkProductModel sources outcome now).2.2[i]? = some s := by
  have hsr : s.should_retry = false := by
    rcases hq with h | h
    · have h5 : ¬(s.error_count < 5) := by omega
      simp [Source.should_retry, h5]
    · simp [Source.should_retry, h]
  refine ⟨?_, ?_, ?_⟩
  · simp [checkProductModel, List.mem_filter, hsr]
  · simp [checkProductModel, List.mem_filter, hsr]
  · intro i h hi
    have hget : sources[i]? = some s := by
      rw [List.getElem?_eq_getElem h]
      exact congrArg some hi
    simp [checkProductModel, List.getElem?_map, hget, hsr]

/-- A source quarantined by five accumulated errors. -/
def quarantinedSource : Source :=
  { checkedSource with id := "s2".data, error_count := 5 }

theorem C2_quarantined_source_skipped_witness :
    quarantinedSource ∉
      (checkProductModel [quarantinedSource]
        (fun _ => SourceOutcome.err "boom".data) 9).1 ∧
    (checkProductModel [quarantinedSource]
      (fun _ => SourceOutcome.err "boom".data) 9).2.2[0]? =
        some quarantinedSource := by
  have h := C2_quarantined_source_skipped [quarantinedSource]
    (fun _ => SourceOutcome.err "boom".data) 9 quarantinedSource
    (Or.inl (by decide))
  exact ⟨h.1, h.2.2 0 (by decide) rfl⟩

/-! ### C7: helper lemmas about `splitOnChar` and the cron grammar -/

theorem splitOnChar_ne_nil (sep : Char) (l : List Char) :
    splitOnChar sep l ≠ [] := by
  induction l with
  | nil => simp [splitOnChar]
  | cons c cs ih =>
    simp only [splitOnChar]
    split
    · simp
    · cases h : splitOnChar sep cs with
      | nil => exact absurd h ih
      | cons p ps => simp

theorem mem_splitOnChar {sep : Char} {l : List Char} {x : Char}
    (hx : x ∈ l) : x = sep ∨ ∃ p ∈ splitOnChar sep l, x ∈ p := by
  induction l with
  | nil => cases hx
  | cons c cs ih =>
    rcases List.mem_cons.mp hx with rfl | hx'
    · by_cases hc : x = sep
      · exact Or.inl hc
      · right
        cases h : splitOnChar sep cs with
        | nil => exact absurd h (splitOnChar_ne_nil sep cs)
        | cons p0 ps0 =>
          refine ⟨x :: p0, ?_, List.mem_cons_self x p0⟩
          simp [splitOnChar, hc, h]
    · rcases ih hx' with h1 | ⟨p, hp, hxp⟩
      · exact Or.inl h1
      · right
        by_cases hc : c = sep
        · exact ⟨p, by simp [splitOnChar, hc, hp], hxp⟩
        · cases h : splitOnChar sep cs with
          | nil => exact absurd h (splitOnChar_ne_nil sep cs)
          | cons p0 ps0 =>
            rw [h] at hp
            rcases List.mem_cons.mp hp with rfl | hp'
            · exact ⟨c :: p, by simp [splitOnChar, hc, h],
                List.mem_cons_of_mem c hxp⟩
            · exact ⟨p, by simp [splitOnChar, hc, h, hp'], hxp⟩

theorem cronItem_chars {it : List Char} (h : cronItemOk it = true) :
    ∀ c ∈ it, c.isDigit = true ∨ c = '-' := by
  intro c hc
  rcases @mem_splitOnChar '-' _ _ hc with h1 | ⟨p, hp, hcp⟩
  · exact Or.inr h1
  · left
    unfold cronItemOk at h
    split at h
    next a heq =>
      rw [heq] at hp
      simp only [List.mem_singleton] at hp
      subst hp
      simp only [Bool.and_eq_true, List.all_eq_true] at h
      exact h.2 c hcp
    next a b heq =>
      rw [heq] at hp
      simp only [Bool.and_eq_true, List.all_eq_true] at h
      rcases List.mem_cons.mp hp with rfl | hp'
      · exact h.1.1.2 c hcp
      · rcases List.mem_cons.mp hp' with rfl | hp''
        · exact h.2 c hcp
        · cases hp''
    next => cases h

theorem cronField_chars {f : List Char} (h : cronFieldOk f = true) :
    (!f.isEmpty) = true ∧
    ∀ c ∈ f, (c.isDigit || c = '*' || c = '-' || c = ',' || c = '/') = true := by
  unfold cronFieldOk at h
  split at h
  · refine ⟨rfl, ?_⟩
    intro c hc
    simp only [List.mem_singleton] at hc
    subst hc
    decide
  next ds =>
    simp only [Bool.and_eq_true, List.all_eq_true] at h
    refine ⟨rfl, ?_⟩
    intro c hc
    rcases List.mem_cons.mp hc with rfl | hc'
    · decide
    · rcases List.mem_cons.mp hc' with rfl | hc''
      · decide
      · simp [h.2 c hc'']
  · rw [List.all_eq_true] at h
    constructor
    · cases f with
      | nil => exact absurd (h [] (by simp [splitOnChar])) (by decide)
      | cons a t => rfl
    · intro c hc
      rcases @mem_splitOnChar ',' _ _ hc with h1 | ⟨p, hp, hcp⟩
      · subst h1
        decide
      · rcases cronItem_chars (h p hp) c hcp with hd | hd
        · simp [hd]
        · subst hd
          decide

/-- C7 counterexample.  `validate_cron_expression` accepts the string
"- - - - -", which is not a well-formed 5-field expression of the cron
grammar (a bare "-" is neither `*`, a step, a number, nor a range): the
validator only checks the character class of each field. -/
theorem C7_counterexample :
    validate_cron_expression "- - - - -".data = true ∧
    wellFormedCron "- - - - -".data = false := by
  constructor <;> decide

/-- C7 amended.  The validator accepts every well-formed 5-field expression
of the grammar (grammar strings have exactly five nonempty fields over
digits, `*`, `-`, `,`, `/`), but it does not reject all other inputs — it
tests only field count and character class, as the counterexample shows. -/
theorem C7_amended_grammar_accepted (s : List Char)
    (h : wellFormedCron s = true) : validate_cron_expression s = true := by
  unfold wellFormedCron at h
  simp only [Bool.and_eq_true, beq_iff_eq, List.all_eq_true] at h
  unfold validate_cron_expression
  rw [if_neg (by simp [h.1])]
  rw [List.all_eq_true]
  intro part hpart
  have hf := cronField_chars (h.2 part hpart)
  simp only [Bool.and_eq_true]
  refine ⟨hf.1, ?_⟩
  rw [List.all_eq_true]
  exact hf.2

theorem C7_amended_grammar_accepted_witness :
    validate_cron_expression "*/15 0 1-5 * 1,2,3".data = true :=
  C7_amended_grammar_accepted "*/15 0 1-5 * 1,2,3".data (by decide)

/-! ### C5: antisymmetry of the repository's version ordering -/

theorem natCompare_swap (a b : Nat) : natCompare b a = (natCompare a b).swap := by
  rcases lt_trichotomy a b with h | rfl | h
  · have h' : ¬b < a := by omega
    simp [natCompare, h, h', Ordering.swap]
  · simp [natCompare, Ordering.swap]
  · have h' : ¬a < b := by omega
    simp [natCompare, h, h', Ordering.swap]

theorem strCmp_swap : ∀ a b : List Char, strCmp b a = (strCmp a b).swap
  | [], [] => rfl
  | [], _ :: _ => rfl
  | _ :: _, [] => rfl
  | a :: as, b :: bs => by
    simp only [strCmp]
    rw [natCompare_swap a.toNat b.toNat]
    cases h : natCompare a.toNat b.toNat with
    | lt => simp [Ordering.swap]
    | gt => simp [Ordering.swap]
    | eq =>
      simp only [Ordering.swap]
      exact strCmp_swap as bs

theorem versionCmp_swap (v1 v2 : Version) :
    versionCmp v2 v1 = (versionCmp v1 v2).swap := by
  unfold versionCmp
  rw [natCompare_swap v1.major v2.major, natCompare_swap v1.minor v2.minor,
      natCompare_swap v1.patch v2.patch]
  cases hmaj : natCompare v1.major v2.major with
  | lt => simp [Ordering.swap]
  | gt => simp [Ordering.swap]
  | eq =>
    cases hmin : natCompare v1.minor v2.minor with
    | lt => simp [Ordering.swap]
    | gt => simp [Ordering.swap]
    | eq =>
      cases hpat : natCompare v1.patch v2.patch with
      | lt => simp [Ordering.swap]
      | gt => simp [Ordering.swap]
      | eq =>
        simp only [Ordering.swap]
        cases v1.pre_release with
        | none =>
          cases v2.pre_release <;> simp [Ordering.swap]
        | some p1 =>
          cases v2.pre_release with
          | none => simp [Ordering.swap]
          | some p2 =>
            simp only [Ordering.swap]
            rw [strCmp_swap p1 p2]
            cases strCmp p1 p2 <;> rfl

/-- C5 counterexample.  `1.0.0-alpha.2` precedes `1.0.0-alpha.10` under
genuine SemVer-2 precedence (the numeric identifiers 2 < 10), but the
tracker compares pre-release tags as plain strings, so
`compare(1.0.0-alpha.2, 1.0.0-alpha.10)` reports `Decreased`, not
`Increased`. -/
theorem C5_counterexample :
    Version.parse "1.0.0-alpha.2".data = some ⟨1, 0, 0, some "alpha.2".data⟩ ∧
    Version.parse "1.0.0-alpha.10".data = some ⟨1, 0, 0, some "alpha.10".data⟩ ∧
    semver2Cmp ⟨1, 0, 0, some "alpha.2".data⟩ ⟨1, 0, 0, some "alpha.10".data⟩ =
      Ordering.lt ∧
    (VersionTracker.compare
      (Json.obj [("version".data, Json.str "1.0.0-alpha.2".data)])
      (Json.obj [("version".data, Json.str "1.0.0-alpha.10".data)])).changed =
      true ∧
    (VersionTracker.compare
      (Json.obj [("version".data, Json.str "1.0.0-alpha.2".data)])
      (Json.obj [("version".data, Json.str "1.0.0-alpha.10".data)])).change_type =
      ChangeType.Decreased := by
  refine ⟨by decide, by decide, by decide, by decide, by decide⟩

/-- C5 amended.  For version values that parse, with SemVer-2 precedence
replaced by the ordering the tracker implements (lexicographic on
(major, minor, patch), release above any pre-release, pre-release tags
compared as plain strings), `va < vb` does give
`compare(va, vb) = changed with direction Increased`. -/
theorem C5_amended_semver_order (s1 s2 : List Char) (v1 v2 : Version)
    (h1 : Version.parse s1 = some v1) (h2 : Version.parse s2 = some v2)
    (hlt : versionCmp v1 v2 = .lt) :
    (VersionTracker.compare (Json.obj [("version".data, Json.str s1)])
      (Json.obj [("version".data, Json.str s2)])).changed = true ∧
    (VersionTracker.compare (Json.obj [("version".data, Json.str s1)])
      (Json.obj [("version".data, Json.str s2)])).change_type =
      ChangeType.Increased := by
  have hgt : versionCmp v2 v1 = .gt := by
    rw [versionCmp_swap v1 v2, hlt]
    rfl
  unfold VersionTracker.compare
  simp only [Json.get, lookupField, if_pos, Json.asStr, Option.bind,
    Option.getD]
  rw [h1, h2]
  simp [hgt]

theorem C5_amended_semver_order_witness :
    (VersionTracker.compare
      (Json.obj [("version".data, Json.str "1.2.3".data)])
      (Json.obj [("version".data, Json.str "1.3.0".data)])).change_type =
      ChangeType.Increased :=
  (C5_amended_semver_order "1.2.3".data "1.3.0".data ⟨1, 2, 3, none⟩
    ⟨1, 3, 0, none⟩ (by decide) (by decide) (by decide)).2

/-! ### C6: currency resolution in the extraction pipeline -/

def contextAU : WebsiteContext :=
  { url := "https://shop.example.com.au/p".data, lang := none,
    locale := none, country_code := none }

def contextUK : WebsiteContext :=
  { url := "https://shop.example.co.uk/p".data, lang := none,
    locale := none, country_code := none }

/-- C6 counterexample.  The extraction pipeline
(`ProductManager::extract_value` → `parse_value_with_tracker("price", text)`
→ `PriceTracker::parse`) never builds a website context — `extract_value`
does not even receive the source URL — so the bare text "25.99" parses with
the tracker's configured default currency AUD regardless of the source's
domain.  The claim's `.co.uk` scenario therefore fails: the pipeline yields
AUD there, not GBP. -/
theorem C6_counterexample :
    ((extract_value_price "25.99".data).bind
      (fun v => (v.get "currency".data).bind Json.asStr)) = some "AUD".data ∧
    ((extract_value_price "25.99".data).bind
      (fun v => (v.get "amount".data).bind Json.asStr)) = some "25.99".data ∧
    "AUD".data ≠ "GBP".data := by
  refine ⟨by decide, by decide, by decide⟩

/-- C6 amended.  `PriceTracker::extract_price_with_context` does resolve the
currency from the website context before the configured default when a
context is supplied (com.au → AUD and co.uk → GBP, each overriding a USD
default); but the product manager's extraction pipeline passes no context,
so a bare number always receives the tracker's configured default (AUD). -/
theorem C6_amended_currency_resolution :
    extract_price_with_context "USD".data "25.99".data (some contextAU) =
      some ("25.99".data, "AUD".data) ∧
    extract_price_with_context "USD".data "25.99".data (some contextUK) =
      some ("25.99".data, "GBP".data) ∧
    ((extract_value_price "25.99".data).bind
      (fun v => (v.get "currency".data).bind Json.asStr)) = some "AUD".data := by
  refine ⟨by decide, by decide, by decide⟩

/-- C10.  For the default-configuration tracker (default currency AUD),
`parse("$19.99")` yields amount "19.99" with currency AUD, not USD; and in
general `extract_currency` resolves to USD only when the configured default
is USD or the text contains the longer symbols "US$" / "USD$", while a text
containing "$" but neither longer symbol always receives the configured
default. -/
theorem C10_default_currency_dollar :
    (PriceTracker.parse "AUD".data "$19.99".data).success = true ∧
    (((PriceTracker.parse "AUD".data "$19.99".data).value.get
      "amount".data).bind Json.asStr) = some "19.99".data ∧
    (((PriceTracker.parse "AUD".data "$19.99".data).value.get
      "currency".data).bind Json.asStr) = some "AUD".data ∧
    (∀ default_currency text : List Char,
      extract_currency default_currency text = some "USD".data →
      default_currency = "USD".data ∨ containsSub text "US$".data = true ∨
        containsSub text "USD$".data = true) ∧
    (∀ default_currency text : List Char,
      containsSub text "$".data = true → containsSub text "US$".data = false →
      containsSub text "USD$".data = false →
      extract_currency default_currency text = some default_currency) := by
  refine ⟨by decide, by decide, by decide, ?_, ?_⟩
  · intro d t h
    unfold extract_currency at h
    by_cases h1 : containsSub t "USD$".data = true
    · exact Or.inr (Or.inr h1)
    rw [if_neg h1] at h
    by_cases h2 : containsSub t "US$".data = true
    · exact Or.inr (Or.inl h2)
    rw [if_neg h2] at h
    by_cases h3 : containsSub t "$".data = true
    · rw [if_pos h3] at h
      by_cases hd : d = "USD".data
      · exact Or.inl hd
      · rw [if_neg hd] at h
        exact Or.inl (Option.some.inj h)
    · rw [if_neg h3] at h
      by_cases h4 : containsSub t "£".data = true
      · rw [if_pos h4] at h
        exact absurd h (by decide)
      rw [if_neg h4] at h
      by_cases h5 : containsSub t "€".data = true
      · rw [if_pos h5] at h
        exact absurd h (by decide)
      rw [if_neg h5] at h
      by_cases h6 : containsSub t "¥".data = true
      · rw [if_pos h6] at h
        exact absurd h (by decide)
      rw [if_neg h6] at h
      by_cases h7 : containsSub t "₹".data = true
      · rw [if_pos h7] at h
        exact absurd h (by decide)
      rw [if_neg h7] at h
      exact absurd h (by decide)
  · intro d t h hUS hUSD
    unfold extract_currency
    rw [if_neg (by simp [hUSD]), if_neg (by simp [hUS]), if_pos h]
    by_cases hd : d = "USD".data
    · rw [if_pos hd, hd]
    · rw [if_neg hd]

theorem C10_default_currency_dollar_witness :
    extract_currency "EUR".data "Price: $5".data = some "EUR".data ∧
    ("AUD".data = "USD".data ∨
      containsSub "US$9".data "US$".data = true ∨
      containsSub "US$9".data "USD$".data = true) :=
  ⟨C10_default_currency_dollar.2.2.2.2 "EUR".data "Price: $5".data
      (by decide) (by decide) (by decide),
   C10_default_currency_dollar.2.2.2.1 "AUD".data "US$9".data (by decide)⟩

/-! ### C4: characterisation of the comparison engine's folds -/

/-- Minimum of a value list (`min vᵢ` of the claim). -/
def qmin : List ℚ → ℚ
  | [] => 0
  | x :: xs => xs.foldl min x

/-- Maximum of a value list (`max vᵢ` of the claim). -/
def qmax : List ℚ → ℚ
  | [] => 0
  | x :: xs => xs.foldl max x

theorem ratCompare_gt_iff (a b : ℚ) : ratCompare a b = .gt ↔ b < a := by
  constructor
  · intro h
    unfold ratCompare at h
    split_ifs at h with h1 h2
    · exact h2
  · intro h
    unfold ratCompare
    rw [if_neg (not_lt.mpr h.le), if_pos h]

theorem foldl_min_le_init : ∀ (qs : List ℚ) (q : ℚ), qs.foldl min q ≤ q
  | [], q => le_refl q
  | a :: qs, q =>
    le_trans (foldl_min_le_init qs (min q a)) (min_le_left q a)

theorem le_foldl_max : ∀ (qs : List ℚ) (q : ℚ), q ≤ qs.foldl max q
  | [], q => le_refl q
  | a :: qs, q =>
    le_trans (le_max_left q a) (le_foldl_max qs (max q a))

theorem foldl_min_nonneg : ∀ (qs : List ℚ) (q : ℚ), 0 ≤ q →
    (∀ a ∈ qs, 0 ≤ a) → 0 ≤ qs.foldl min q
  | [], _, hq, _ => hq
  | a :: qs, q, hq, h =>
    foldl_min_nonneg qs (min q a)
      (le_min hq (h a (List.mem_cons_self a qs)))
      (fun x hx => h x (List.mem_cons_of_mem a hx))

/-- The value of the `min_by` fold: with every key present, it is the
running minimum of the keys. -/
theorem foldMin_key {α : Type} (k : α → Option ℚ) :
    ∀ (l : List α) (qs : List ℚ) (x : α) (q : ℚ),
      k x = some q → l.map k = qs.map some →
      k (l.foldl (fun a y =>
        if cmpOptAmount (k a) (k y) = .gt then y else a) x) =
        some (qs.foldl min q)
  | [], qs, x, q, hx, hmap => by
    cases qs with
    | nil => simpa using hx
    | cons _ _ => simp at hmap
  | y :: l, qs, x, q, hx, hmap => by
    cases qs with
    | nil => simp at hmap
    | cons q' qs' =>
      simp only [List.map_cons, List.cons.injEq] at hmap
      obtain ⟨hy, hrest⟩ := hmap
      simp only [List.foldl_cons]
      by_cases hgt : cmpOptAmount (k x) (k y) = .gt
      · have hq' : q' < q := by
          rw [hx, hy] at hgt
          exact (ratCompare_gt_iff q q').mp hgt
        rw [if_pos hgt, min_eq_right hq'.le]
        exact foldMin_key k l qs' y q' hy hrest
      · have hle : q ≤ q' := by
          rw [hx, hy] at hgt
          exact not_lt.mp (fun hlt => hgt ((ratCompare_gt_iff q q').mpr hlt))
        rw [if_neg hgt, min_eq_left hle]
        exact foldMin_key k l qs' x q hx hrest

/-- The value of the `max_by` fold. -/
theorem foldMax_key {α : Type} (k : α → Option ℚ) :
    ∀ (l : List α) (qs : List ℚ) (x : α) (q : ℚ),
      k x = some q → l.map k = qs.map some →
      k (l.foldl (fun a y =>
        if cmpOptAmount (k a) (k y) = .gt then a else y) x) =
        some (qs.foldl max q)
  | [], qs, x, q, hx, hmap => by
    cases qs with
    | nil => simpa using hx
    | cons _ _ => simp at hmap
  | y :: l, qs, x, q, hx, hmap => by
    cases qs with
    | nil => simp at hmap
    | cons q' qs' =>
      simp only [List.map_cons, List.cons.injEq] at hmap
      obtain ⟨hy, hrest⟩ := hmap
      simp only [List.foldl_cons]
      by_cases hgt : cmpOptAmount (k x) (k y) = .gt
      · have hq' : q' < q := by
          rw [hx, hy] at hgt
          exact (ratCompare_gt_iff q q').mp hgt
        rw [if_pos hgt, max_eq_left hq'.le]
        exact foldMax_key k l qs' x q hx hrest
      · have hle : q ≤ q' := by
          rw [hx, hy] at hgt
          exact not_lt.mp (fun hlt => hgt ((ratCompare_gt_iff q q').mpr hlt))
        rw [if_neg hgt, max_eq_right hle]
        exact foldMax_key k l qs' y q' hy hrest

theorem find?_cons_pos {α : Type} (p : α → Bool) (a : α) (l : List α)
    (h : p a = true) : (a :: l).find? p = some a := by
  simp [List.find?_cons, h]

theorem find?_cons_neg {α : Type} (p : α → Bool) (a : α) (l : List α)
    (h : p a = false) : (a :: l).find? p = l.find? p := by
  simp [List.find?_cons, h]

/-- The `min_by` fold returns the first element attaining the minimum key
(ties resolve to the earlier element because the fold only replaces its
accumulator on a strict improvement). -/
theorem foldMin_find {α : Type} (k : α → Option ℚ) :
    ∀ (l : List α) (qs : List ℚ) (x : α) (q : ℚ),
      k x = some q → l.map k = qs.map some →
      (x :: l).find? (fun s => k s == some (qs.foldl min q)) =
        some (l.foldl (fun a y =>
          if cmpOptAmount (k a) (k y) = .gt then y else a) x)
  | [], qs, x, q, hx, hmap => by
    cases qs with
    | nil =>
      simp only [List.foldl_nil, List.find?_cons]
      rw [show (k x == some q) = true by simp [hx]]
    | cons _ _ => simp at hmap
  | y :: l, qs, x, q, hx, hmap => by
    cases qs with
    | nil => simp at hmap
    | cons q' qs' =>
      simp only [List.map_cons, List.cons.injEq] at hmap
      obtain ⟨hy, hrest⟩ := hmap
      simp only [List.foldl_cons]
      by_cases hgt : cmpOptAmount (k x) (k y) = .gt
      · have hq' : q' < q := by
          rw [hx, hy] at hgt
          exact (ratCompare_gt_iff q q').mp hgt
        rw [if_pos hgt, min_eq_right hq'.le]
        have hM : qs'.foldl min q' ≤ q' := foldl_min_le_init qs' q'
        have hxM : (k x == some (qs'.foldl min q')) = false := by
          rw [hx]
          simp only [beq_eq_false_iff_ne, ne_eq, Option.some.injEq]
          intro hcon
          rw [hcon] at hq'
          exact absurd hq' (not_lt.mpr hM)
        rw [find?_cons_neg (fun s => k s == some (qs'.foldl min q')) x
          (y :: l) hxM]
        exact foldMin_find k l qs' y q' hy hrest
      · have hle : q ≤ q' := by
          rw [hx, hy] at hgt
          exact not_lt.mp (fun hlt => hgt ((ratCompare_gt_iff q q').mpr hlt))
        rw [if_neg hgt, min_eq_left hle]
        have hih := foldMin_find k l qs' x q hx hrest
        cases hxeq : (k x == some (qs'.foldl min q)) with
        | true =>
          rw [find?_cons_pos (fun s => k s == some (qs'.foldl min q)) x
            l hxeq] at hih
          rw [find?_cons_pos (fun s => k s == some (qs'.foldl min q)) x
            (y :: l) hxeq]
          exact hih
        | false =>
          rw [find?_cons_neg (fun s => k s == some (qs'.foldl min q)) x
            l hxeq] at hih
          rw [find?_cons_neg (fun s => k s == some (qs'.foldl min q)) x
            (y :: l) hxeq]
          have hyne : (k y == some (qs'.foldl min q)) = false := by
            rw [hy]
            simp only [beq_eq_false_iff_ne, ne_eq, Option.some.injEq]
            intro hcon
            have h1 : qs'.foldl min q ≤ q := foldl_min_le_init qs' q
            have h2 : q = qs'.foldl min q := le_antisymm (hcon ▸ hle) h1
            rw [hx] at hxeq
            simp only [beq_eq_false_iff_ne, ne_eq, Option.some.injEq] at hxeq
            exact hxeq h2
          rw [find?_cons_neg (fun s => k s == some (qs'.foldl min q)) y
            l hyne]
          exact hih

/-- A map onto `some`-keys makes `filterMap` the full key list. -/
theorem filterMap_eq_of_map_some {α : Type} (k : α → Option ℚ) :
    ∀ (l : List α) (qs : List ℚ), l.map k = qs.map some →
      l.filterMap k = qs
  | [], qs, h => by cases qs <;> simp_all
  | x :: l, qs, h => by
    cases qs with
    | nil => simp at h
    | cons q qs' =>
      simp only [List.map_cons, List.cons.injEq] at h
      simp [List.filterMap_cons, h.1,
        filterMap_eq_of_map_some k l qs' h.2]

/-! ### C4: the two-decimal rendering parses back to the rounded value -/

theorem digitChar_isDigit {d : Nat} (h : d < 10) :
    (Nat.digitChar d).isDigit = true := by
  interval_cases d <;> decide

theorem digitChar_toNat {d : Nat} (h : d < 10) :
    (Nat.digitChar d).toNat - 48 = d := by
  interval_cases d <;> decide

theorem natRender_all_digits (n : Nat) :
    ∀ c ∈ natRender n, c.isDigit = true := by
  intro c hc
  unfold natRender at hc
  split at hc
  · simp only [List.mem_singleton] at hc
    subst hc
    decide
  · simp only [List.mem_reverse, List.mem_map] at hc
    obtain ⟨d, hd, rfl⟩ := hc
    exact digitChar_isDigit (Nat.digits_lt_base (by norm_num) hd)

theorem natRender_ne_nil (n : Nat) : natRender n ≠ [] := by
  unfold natRender
  split
  · simp
  next h =>
    simp only [ne_eq, List.reverse_eq_nil_iff, List.map_eq_nil_iff]
    exact fun hcon => h (Nat.digits_eq_nil_iff_eq_zero.mp hcon)

theorem digitsToNat_rev_map : ∀ (ds : List Nat), (∀ d ∈ ds, d < 10) →
    digitsToNat ((ds.map Nat.digitChar).reverse) = Nat.ofDigits 10 ds
  | [], _ => rfl
  | d :: ds, h => by
    have hrec := digitsToNat_rev_map ds
      (fun x hx => h x (List.mem_cons_of_mem d hx))
    unfold digitsToNat at hrec ⊢
    simp only [List.map_cons, List.reverse_cons, List.foldl_append,
      List.foldl_cons, List.foldl_nil]
    rw [hrec, Nat.ofDigits_cons,
      digitChar_toNat (h d (List.mem_cons_self d ds))]
    ring

theorem digitsToNat_natRender (n : Nat) : digitsToNat (natRender n) = n := by
  unfold natRender
  split
  next h =>
    rw [h]
    decide
  next h =>
    rw [digitsToNat_rev_map (Nat.digits 10 n)
      (fun d hd => Nat.digits_lt_base (by norm_num) hd)]
    exact Nat.ofDigits_digits 10 n

theorem takeWhile_append_stop (p : Char → Bool) :
    ∀ (l1 : List Char) (c : Char) (l2 : List Char),
      (∀ x ∈ l1, p x = true) → p c = false →
      (l1 ++ c :: l2).takeWhile p = l1 ∧
      (l1 ++ c :: l2).dropWhile p = c :: l2
  | [], c, l2, _, hc => by
    simp [List.takeWhile_cons, List.dropWhile_cons, hc]
  | a :: l1, c, l2, h, hc => by
    have ha := h a (List.mem_cons_self a l1)
    have hrec := takeWhile_append_stop p l1 c l2
      (fun x hx => h x (List.mem_cons_of_mem a hx)) hc
    simp [List.takeWhile_cons, List.dropWhile_cons, ha, hrec.1, hrec.2]

/-- Parsing back the two-decimal rendering recovers exactly the rounded
value: this is how the engine's stored average relates to the true mean. -/
theorem parseDecimal_format2dp (q : ℚ) :
    parseDecimal (format2dp q) = some ((roundHundredths q : ℚ) / 100) := by
  unfold format2dp
  set n := roundHundredths q with hn
  set a := n.natAbs with ha
  have hIntAll : ∀ x ∈ natRender (a / 100), x.isDigit = true :=
    natRender_all_digits _
  have hf1d : (Nat.digitChar (a % 100 / 10)).isDigit = true :=
    digitChar_isDigit (by omega)
  have hf2d : (Nat.digitChar (a % 100 % 10)).isDigit = true :=
    digitChar_isDigit (by omega)
  have hsplit := takeWhile_append_stop Char.isDigit (natRender (a / 100)) '.'
    [Nat.digitChar (a % 100 / 10), Nat.digitChar (a % 100 % 10)] hIntAll
    (by decide)
  have hDint : digitsToNat (natRender (a / 100)) = a / 100 :=
    digitsToNat_natRender _
  have hDfrac : digitsToNat
      [Nat.digitChar (a % 100 / 10), Nat.digitChar (a % 100 % 10)] =
      a % 100 := by
    unfold digitsToNat
    simp only [List.foldl_cons, List.foldl_nil]
    rw [digitChar_toNat (show a % 100 / 10 < 10 by omega),
      digitChar_toNat (show a % 100 % 10 < 10 by omega)]
    omega
  have hdm : (100 : ℚ) * ((a / 100 : ℕ) : ℚ) + ((a % 100 : ℕ) : ℚ) =
      (a : ℚ) := by
    exact_mod_cast Nat.div_add_mod a 100
  by_cases hneg : n < 0
  · rw [if_pos hneg]
    have haq : ((a : ℕ) : ℚ) = -((n : ℤ) : ℚ) := by
      have hz : (a : ℤ) = -n := by
        rw [ha]
        omega
      exact_mod_cast congrArg (fun z : ℤ => (z : ℚ)) hz
    simp only [List.cons_append, List.nil_append]
    simp only [parseDecimal, List.head?_cons, List.tail_cons]
    rw [if_pos (show True ∨ (some '-' : Option Char) = some '+' from
      Or.inl trivial)]
    rw [if_pos (show True from trivial)]
    rw [hsplit.1, hsplit.2]
    rw [if_neg (show ¬((List.isEmpty
      ('.' :: [Nat.digitChar (a % 100 / 10), Nat.digitChar (a % 100 % 10)])) =
        true) by simp)]
    rw [if_pos (show ('.' :: [Nat.digitChar (a % 100 / 10),
      Nat.digitChar (a % 100 % 10)]).head? = some '.' from rfl)]
    rw [if_pos (by simp [hf1d, hf2d] : ((('.' :: [Nat.digitChar (a % 100 / 10),
      Nat.digitChar (a % 100 % 10)]).tail.all Char.isDigit) &&
      !((natRender (a / 100)).isEmpty && ('.' :: [Nat.digitChar (a % 100 / 10),
        Nat.digitChar (a % 100 % 10)]).tail.isEmpty)) = true)]
    refine congrArg some ?_
    simp only [List.tail_cons]
    rw [hDint, hDfrac]
    simp only [List.length_cons, List.length_nil]
    field_simp
    push_cast at hdm haq ⊢
    linarith [hdm, haq]
  · rw [if_neg hneg]
    have haq : ((a : ℕ) : ℚ) = ((n : ℤ) : ℚ) := by
      have hz : (a : ℤ) = n := by
        rw [ha]
        omega
      exact_mod_cast congrArg (fun z : ℤ => (z : ℚ)) hz
    simp only [List.nil_append]
    cases hR : natRender (a / 100) with
    | nil => exact absurd hR (natRender_ne_nil _)
    | cons c t =>
      have hc : c.isDigit = true := by
        refine hIntAll c ?_
        rw [hR]
        exact List.mem_cons_self c t
      have hcm : c ≠ '-' ∧ c ≠ '+' := by
        constructor <;> rintro rfl <;> exact absurd hc (by decide)
      rw [hR] at hsplit hDint
      simp only [List.cons_append] at hsplit
      simp only [List.cons_append, parseDecimal, List.head?_cons,
        List.tail_cons]
      rw [if_neg (show ¬((some c : Option Char) = some '-') by
        simp [hcm.1])]
      rw [if_neg (show ¬((some c : Option Char) = some '-' ∨
          (some c : Option Char) = some '+') by simp [hcm.1, hcm.2])]
      rw [hsplit.1, hsplit.2]
      rw [if_neg (show ¬((List.isEmpty ('.' :: [Nat.digitChar (a % 100 / 10),
        Nat.digitChar (a % 100 % 10)])) = true) by simp)]
      rw [if_pos (show ('.' :: [Nat.digitChar (a % 100 / 10),
        Nat.digitChar (a % 100 % 10)]).head? = some '.' from rfl)]
      rw [if_pos (by simp [hf1d, hf2d] :
        ((('.' :: [Nat.digitChar (a % 100 / 10),
          Nat.digitChar (a % 100 % 10)]).tail.all Char.isDigit) &&
        !((c :: t).isEmpty && ('.' :: [Nat.digitChar (a % 100 / 10),
          Nat.digitChar (a % 100 % 10)]).tail.isEmpty)) = true)]
      refine congrArg some ?_
      simp only [List.tail_cons]
      rw [hDint, hDfrac]
      simp only [List.length_cons, List.length_nil]
      field_simp
      push_cast at hdm haq ⊢
      linarith [hdm, haq]

theorem get_savings_eq (c : PriceComparison) (w : Json) (wa ba : ℚ)
    (hw : c.worst_value_json = some w) (hwa : extract_amount w = some wa)
    (hba : extract_amount c.best_value_json = some ba) :
    c.get_savings = some (wa - ba) := by
  simp only [PriceComparison.get_savings, hw, hwa, hba]

theorem get_savings_percentage_pos (c : PriceComparison) (w : Json)
    (wa s : ℚ) (hw : c.worst_value_json = some w)
    (hwa : extract_amount w = some wa) (hs : c.get_savings = some s)
    (hpos : wa > 0) : c.get_savings_percentage = some (s / wa * 100) := by
  simp only [PriceComparison.get_savings_percentage, hs, hw, hwa, if_pos hpos]

theorem get_savings_percentage_nonpos (c : PriceComparison) (w : Json)
    (wa s : ℚ) (hw : c.worst_value_json = some w)
    (hwa : extract_amount w = some wa) (hs : c.get_savings = some s)
    (hle : wa ≤ 0) : c.get_savings_percentage = none := by
  simp only [PriceComparison.get_savings_percentage, hs, hw, hwa,
    if_neg (not_lt.mpr hle)]

/-- The two sources of the percentage counterexample: a negative amount and
a positive one. -/
def negSources : List SourceComparison :=
  [{ source_id := "s1".data, store_name := [], value := Json.num (-5),
     formatted_value := [], url := [] },
   { source_id := "s2".data, store_name := [], value := Json.num 10,
     formatted_value := [], url := [] }]

/-- The three sources of the average counterexample: the first in amount
shape so the stored mean is a two-decimal rendering. -/
def avgSources : List SourceComparison :=
  [{ source_id := "a1".data, store_name := [],
     value := Json.obj [("amount".data, Json.num 10)],
     formatted_value := [], url := [] },
   { source_id := "a2".data, store_name := [], value := Json.num 10,
     formatted_value := [], url := [] },
   { source_id := "a3".data, store_name := [], value := Json.num 11,
     formatted_value := [], url := [] }]

/-- Evaluation of `PriceComparison::new` on a list of at least two
sources: best is the `min_by` fold, worst the `max_by` fold, and the
average is stored. -/
theorem new_eval (pid : List Char) (s0 s1 : SourceComparison)
    (rest2 : List SourceComparison) :
    PriceComparison.new ⟨pid, s0 :: s1 :: rest2⟩ = Except.ok
      { product_id := pid,
        sources_json := s0 :: s1 :: rest2,
        best_source_id := ((s1 :: rest2).foldl (fun a y =>
          if cmpOptAmount (extract_amount a.value) (extract_amount y.value) =
            .gt then y else a) s0).source_id,
        best_value_json := ((s1 :: rest2).foldl (fun a y =>
          if cmpOptAmount (extract_amount a.value) (extract_amount y.value) =
            .gt then y else a) s0).value,
        worst_value_json := some (((s1 :: rest2).foldl (fun a y =>
          if cmpOptAmount (extract_amount a.value) (extract_amount y.value) =
            .gt then a else y) s0).value),
        avg_value_json := calculate_average (s0 :: s1 :: rest2) } := by
  have hlen : (s0 :: s1 :: rest2).length > 1 := by
    simp only [List.length_cons]
    omega
  simp only [PriceComparison.new, List.isEmpty_cons, Bool.false_eq_true,
    if_false, rustMinBy, rustMaxBy, compare_values, if_pos hlen]
  rfl

/-- C4 counterexample.  Two failures of the claim as stated:
(1) with source values −5 and 10, `worst = 10 > 0` so `savings_percentage`
is emitted, and it equals 150 ∉ [0, 100];
(2) with amounts 10, 10, 11 (first source amount-shaped), the stored
`avg_value` holds the two-decimal rendering 10.33 of the mean 31/3, so
`avg_value` is not the arithmetic mean of the parseable values. -/
theorem C4_counterexample :
    ((PriceComparison.new ⟨"p".data, negSources⟩).toOption.bind
      PriceComparison.get_savings_percentage) = some 150 ∧
    ¬((150 : ℚ) ≤ 100) ∧
    ((PriceComparison.new ⟨"p".data, avgSources⟩).toOption.bind
      (fun c => c.avg_value_json.bind extract_amount)) = some (1033 / 100) ∧
    ((avgSources.filterMap (fun s => extract_amount s.value)).sum /
      ((avgSources.filterMap (fun s => extract_amount s.value)).length : ℚ)) =
      31 / 3 ∧
    (1033 / 100 : ℚ) ≠ 31 / 3 := by
  refine ⟨?_, by norm_num, ?_, ?_, by norm_num⟩
  · show some (((10 : ℚ) - -5) / 10 * 100) = some 150
    norm_num
  · show parseDecimal
      (format2dp (((10 : ℚ) + (10 + (11 + 0))) / ((3 : ℕ) : ℚ))) =
      some (1033 / 100)
    rw [parseDecimal_format2dp]
    refine congrArg some ?_
    have hR : roundHundredths (((10 : ℚ) + (10 + (11 + 0))) / ((3 : ℕ) : ℚ)) =
        1033 := by
      unfold roundHundredths
      rw [show ((((10 : ℚ) + (10 + (11 + 0))) / ((3 : ℕ) : ℚ)) * 100 + 1 / 2) =
        6203 / 6 by push_cast; ring_nf]
      rw [Int.floor_eq_iff]
      constructor <;> norm_num
    rw [hR]
    norm_num
  · show ((10 : ℚ) + (10 + (11 + 0))) / ((3 : ℕ) : ℚ) = 31 / 3
    push_cast
    norm_num

theorem extract_amount_avgshape (s cur : List Char) :
    extract_amount (Json.obj [("amount".data, Json.str s),
      ("currency".data, Json.str cur)]) = parseDecimal s := rfl

theorem extract_amount_numshape (q : ℚ) :
    extract_amount (Json.obj [("number".data, Json.num q)]) = some q := rfl

/-- Two sources with amounts 3 and 1, the witness input. -/
def witSources : List SourceComparison :=
  [{ source_id := "w1".data, store_name := [], value := Json.num 3,
     formatted_value := [], url := [] },
   { source_id := "w2".data, store_name := [], value := Json.num 1,
     formatted_value := [], url := [] }]

/-- C4 (amended).  For a comparison built from n ≥ 2 sources whose values
all parse to amounts: best_source_id is the argmin with ties to the first
source in input order (it is the first hit of `find?` on the minimum);
the best value extracts to min, the worst to max; savings = max − min;
the stored average is either the exact mean or, when the first source is
amount-shaped, its two-decimal half-up rounding; and — only under the
added hypothesis that every amount is nonnegative — the savings
percentage lies in [0, 100] when max > 0 and is absent when max ≤ 0.
Without the nonnegativity restriction the percentage can exceed 100, and
the stored average differs from the mean by the rounding (see the
counterexample). -/
theorem C4_amended_comparison_correct (product_id : List Char)
    (sources : List SourceComparison) (qs : List ℚ)
    (hlen : 2 ≤ sources.length)
    (hq : sources.map (fun s => extract_amount s.value) = qs.map some) :
    ∃ c, PriceComparison.new ⟨product_id, sources⟩ = Except.ok c ∧
      (∃ s, sources.find?
          (fun s => extract_amount s.value == some (qmin qs)) = some s ∧
        c.best_source_id = s.source_id ∧ c.best_value_json = s.value) ∧
      extract_amount c.best_value_json = some (qmin qs) ∧
      (∃ w, c.worst_value_json = some w ∧
        extract_amount w = some (qmax qs)) ∧
      c.get_savings = some (qmax qs - qmin qs) ∧
      (∃ a, c.avg_value_json = some a ∧
        (extract_amount a = some (qs.sum / (qs.length : ℚ)) ∨
         extract_amount a =
           some ((roundHundredths (qs.sum / (qs.length : ℚ)) : ℚ) / 100))) ∧
      ((∀ v ∈ qs, 0 ≤ v) →
        (0 < qmax qs →
          ∃ p, c.get_savings_percentage = some p ∧ 0 ≤ p ∧ p ≤ 100) ∧
        (qmax qs ≤ 0 → c.get_savings_percentage = none)) := by
  obtain ⟨s0, s1, rest2, rfl⟩ : ∃ s0 s1 rest2, sources = s0 :: s1 :: rest2 := by
    cases sources with
    | nil => simp at hlen
    | cons s0 rest =>
      cases rest with
      | nil => simp at hlen
      | cons s1 rest2 => exact ⟨s0, s1, rest2, rfl⟩
  obtain ⟨q0, q1, qs2, rfl⟩ : ∃ q0 q1 qs2, qs = q0 :: q1 :: qs2 := by
    cases qs with
    | nil => simp at hq
    | cons q0 qt =>
      cases qt with
      | nil => simp at hq
      | cons q1 qs2 => exact ⟨q0, q1, qs2, rfl⟩
  simp only [List.map_cons, List.cons.injEq] at hq
  obtain ⟨hk0, hk1, hkrest⟩ := hq
  have hmap1 : (s1 :: rest2).map (fun s => extract_amount s.value) =
      (q1 :: qs2).map some := by simp [hk1, hkrest]
  have hmap0 : (s0 :: s1 :: rest2).map (fun s => extract_amount s.value) =
      (q0 :: q1 :: qs2).map some := by simp [hk0, hk1, hkrest]
  have hbk : extract_amount ((s1 :: rest2).foldl (fun a y =>
      if cmpOptAmount (extract_amount a.value) (extract_amount y.value) =
        .gt then y else a) s0).value = some ((q1 :: qs2).foldl min q0) :=
    foldMin_key (fun s => extract_amount s.value) (s1 :: rest2) (q1 :: qs2)
      s0 q0 hk0 hmap1
  have hwk : extract_amount ((s1 :: rest2).foldl (fun a y =>
      if cmpOptAmount (extract_amount a.value) (extract_amount y.value) =
        .gt then a else y) s0).value = some ((q1 :: qs2).foldl max q0) :=
    foldMax_key (fun s => extract_amount s.value) (s1 :: rest2) (q1 :: qs2)
      s0 q0 hk0 hmap1
  have hqmin : qmin (q0 :: q1 :: qs2) = (q1 :: qs2).foldl min q0 := rfl
  have hqmax : qmax (q0 :: q1 :: qs2) = (q1 :: qs2).foldl max q0 := rfl
  rw [new_eval]
  refine ⟨_, rfl, ?_, ?_, ?_, ?_, ?_, ?_⟩
  · refine ⟨(s1 :: rest2).foldl (fun a y =>
      if cmpOptAmount (extract_amount a.value) (extract_amount y.value) =
        .gt then y else a) s0, ?_, rfl, rfl⟩
    simp only [qmin]
    exact foldMin_find (fun s => extract_amount s.value) (s1 :: rest2)
      (q1 :: qs2) s0 q0 hk0 hmap1
  · show extract_amount ((s1 :: rest2).foldl (fun a y =>
      if cmpOptAmount (extract_amount a.value) (extract_amount y.value) =
        .gt then y else a) s0).value = some (qmin (q0 :: q1 :: qs2))
    rw [hqmin]
    exact hbk
  · refine ⟨((s1 :: rest2).foldl (fun a y =>
      if cmpOptAmount (extract_amount a.value) (extract_amount y.value) =
        .gt then a else y) s0).value, rfl, ?_⟩
    rw [hqmax]
    exact hwk
  · rw [hqmax, hqmin]
    exact get_savings_eq _ _ _ _ rfl hwk hbk
  · have hfm : (s0 :: s1 :: rest2).filterMap
        (fun s => extract_amount s.value) = q0 :: q1 :: qs2 :=
      filterMap_eq_of_map_some (fun s => extract_amount s.value)
        (s0 :: s1 :: rest2) (q0 :: q1 :: qs2) hmap0
    show ∃ a, calculate_average (s0 :: s1 :: rest2) = some a ∧ _
    rcases hv0 : s0.value with _ | b | nv | sv | fields
    · simp only [calculate_average, List.head?_cons, hv0]
      rw [hfm, if_neg (by simp)]
      exact ⟨_, rfl, Or.inl rfl⟩
    · simp only [calculate_average, List.head?_cons, hv0]
      rw [hfm, if_neg (by simp)]
      exact ⟨_, rfl, Or.inl rfl⟩
    · simp only [calculate_average, List.head?_cons, hv0]
      rw [hfm, if_neg (by simp)]
      exact ⟨_, rfl, Or.inl rfl⟩
    · simp only [calculate_average, List.head?_cons, hv0]
      rw [hfm, if_neg (by simp)]
      exact ⟨_, rfl, Or.inl rfl⟩
    · simp only [calculate_average, List.head?_cons, hv0]
      rw [hfm, if_neg (by simp)]
      by_cases hamt : hasKey "amount".data fields
      · rw [if_pos hamt]
        refine ⟨_, rfl, Or.inr ?_⟩
        rw [extract_amount_avgshape, parseDecimal_format2dp]
      · rw [if_neg hamt]
        by_cases hnum : hasKey "number".data fields
        · rw [if_pos hnum]
          exact ⟨_, rfl, Or.inl (extract_amount_numshape _)⟩
        · rw [if_neg hnum]
          exact ⟨_, rfl, Or.inl rfl⟩
  · intro hnn
    have hminmax : (q1 :: qs2).foldl min q0 ≤ (q1 :: qs2).foldl max q0 :=
      le_trans (foldl_min_le_init _ _) (le_foldl_max _ _)
    have hmin0 : 0 ≤ (q1 :: qs2).foldl min q0 :=
      foldl_min_nonneg _ _ (hnn q0 (by simp))
        (fun a ha => hnn a (by simp [ha]))
    constructor
    · intro hpos
      rw [hqmax] at hpos
      refine ⟨((q1 :: qs2).foldl max q0 - (q1 :: qs2).foldl min q0) /
        (q1 :: qs2).foldl max q0 * 100, ?_, ?_, ?_⟩
      · exact get_savings_percentage_pos _ _ _ _ rfl hwk
          (get_savings_eq _ _ _ _ rfl hwk hbk) hpos
      · exact mul_nonneg (div_nonneg (sub_nonneg.mpr hminmax) hpos.le)
          (by norm_num)
      · have h1 : ((q1 :: qs2).foldl max q0 - (q1 :: qs2).foldl min q0) /
            (q1 :: qs2).foldl max q0 ≤ 1 := by
          rw [div_le_one hpos]
          linarith
        calc ((q1 :: qs2).foldl max q0 - (q1 :: qs2).foldl min q0) /
            (q1 :: qs2).foldl max q0 * 100 ≤ 1 * 100 :=
              mul_le_mul_of_nonneg_right h1 (by norm_num)
          _ = 100 := by norm_num
    · intro hle
      rw [hqmax] at hle
      exact get_savings_percentage_nonpos _ _ _ _ rfl hwk
        (get_savings_eq _ _ _ _ rfl hwk hbk) hle

/-- Witness for the amended C4 theorem at two concrete sources with
amounts 3 and 1. -/
theorem C4_amended_comparison_correct_witness :
    2 ≤ witSources.length ∧
    (∃ c, PriceComparison.new ⟨"p".data, witSources⟩ = Except.ok c ∧
      (∃ s, witSources.find?
          (fun s => extract_amount s.value == some (qmin [3, 1])) = some s ∧
        c.best_source_id = s.source_id ∧ c.best_value_json = s.value) ∧
      extract_amount c.best_value_json = some (qmin [3, 1]) ∧
      (∃ w, c.worst_value_json = some w ∧
        extract_amount w = some (qmax [3, 1])) ∧
      c.get_savings = some (qmax [3, 1] - qmin [3, 1]) ∧
      (∃ a, c.avg_value_json = some a ∧
        (extract_amount a =
          some (([3, 1] : List ℚ).sum / (([3, 1] : List ℚ).length : ℚ)) ∨
         extract_amount a =
          some ((roundHundredths (([3, 1] : List ℚ).sum /
            (([3, 1] : List ℚ).length : ℚ)) : ℚ) / 100))) ∧
      ((∀ v ∈ ([3, 1] : List ℚ), 0 ≤ v) →
        (0 < qmax [3, 1] →
          ∃ p, c.get_savings_percentage = some p ∧ 0 ≤ p ∧ p ≤ 100) ∧
        (qmax [3, 1] ≤ 0 → c.get_savings_percentage = none))) :=
  ⟨by decide, C4_amended_comparison_correct "p".data witSources [3, 1]
    (by decide) rfl⟩

end Watcher
